import Mathlib

/-!
Verification of the evaluation core of `reactivepy`: a shallow embedding of
`reactivepy/code_object.py` (code-unit analysis: input/output names and the
identity string) and `reactivepy/execute.py` (cell execution with captured
stdout/stderr/display and a failure flag), together with theorems settling
the specification's claims about them.
-/

namespace ReactivePy

/-! ## Scope trees (`symtable` as consumed by `code_object.py`)

The scope resolver itself is CPython's `symtable` module; `CodeObject` only
reads, for each symbol of each scope, its name and the classification flags
`is_imported()`, `is_global()`, `is_assigned()`.  A scope tree is therefore
modelled as a tree of scopes, each carrying its direct symbols with exactly
those flags. -/

/-- A name occurring in one scope of the scope tree, with the classification
flags that `code_object.py` consults (`symtable.Symbol` as used there). -/
structure Symbol where
  name : String
  is_imported : Bool
  is_global : Bool
  is_assigned : Bool
  deriving DecidableEq, Repr

mutual
/-- One scope of the lexical scope tree (`symtable.SymbolTable`): its direct
symbols (`get_symbols()`, in order) plus its child scopes (`get_children()`). -/
inductive SymbolTable where
  | node (symbols : List Symbol) (children : SymbolTableList)

/-- The list of child scopes of a scope. -/
inductive SymbolTableList where
  | nil
  | cons (head : SymbolTable) (tail : SymbolTableList)
end

/-- The per-scope loop body of `CodeObject._find_symbol_tables`: walk the
direct symbols of one scope in order; first record an imported symbol's name
into the running `imports` collection, then yield the symbol's name when it is
a global reference, not in the builtin registry `ns_manager`, and not among
the names imported so far (the just-recorded import included).  Returns the
yielded names and the updated running imports.  The Python `set` of imports is
modelled as a list used only through membership. -/
def scanSymbols : List Symbol → List String → List String → List String × List String
  | [], imports, _ => ([], imports)
  | sym :: rest, imports, ns_manager =>
    let imports1 := if sym.is_imported then sym.name :: imports else imports
    let keep := sym.is_global && !(ns_manager.contains sym.name)
        && !(imports1.contains sym.name)
    let p := scanSymbols rest imports1 ns_manager
    ((if keep then [sym.name] else []) ++ p.1, p.2)

mutual
/-- `CodeObject._find_symbol_tables`: depth-first traversal yielding input
names, threading the single running imported-name collection through the
current scope's symbols and then through every child scope. -/
def findSymbolTables (st : SymbolTable) (imports ns_manager : List String) :
    List String × List String :=
  match st with
  | .node syms children =>
    let p := scanSymbols syms imports ns_manager
    let q := findSymbolTablesChildren children p.2 ns_manager
    (p.1 ++ q.1, q.2)

/-- Traversal of a list of child scopes, threading the running imports. -/
def findSymbolTablesChildren (l : SymbolTableList) (imports ns_manager : List String) :
    List String × List String :=
  match l with
  | .nil => ([], imports)
  | .cons st rest =>
    let p := findSymbolTables st imports ns_manager
    let q := findSymbolTablesChildren rest p.2 ns_manager
    (p.1 ++ q.1, q.2)
end

/-- `CodeObject._find_input_variables`: start from an empty imported set and
return the list of names yielded by the traversal.  The source builds
`list(...)` of the generator directly, so no deduplication happens here. -/
def findInputVariables (st : SymbolTable) (ns_manager : List String) : List String :=
  (findSymbolTables st [] ns_manager).1

/-- The direct symbols of the module (top-level) scope. -/
def topLevelSymbols : SymbolTable → List Symbol
  | .node syms _ => syms

/-- The names collected by `CodeObject._find_output_variables`: every direct
symbol of the module scope that is assigned or imported, in symbol order. -/
def collectedOutputs (st : SymbolTable) : List String :=
  ((topLevelSymbols st).filter (fun s => s.is_assigned || s.is_imported)).map
    (fun s => s.name)

/-- The `num_imports` count of `CodeObject._find_output_variables`: how many
of the collected symbols are imported. -/
def numOutputImports (st : SymbolTable) : Nat :=
  ((topLevelSymbols st).filter (fun s => s.is_assigned || s.is_imported)).countP
    (fun s => s.is_imported)

/-- The `frozenset` of `SymbolWrapper`s, modelled as a name list with
duplicate names collapsed: `SymbolWrapper` hashes and compares by name, so
the frozenset behaves as a finite set of names; its iteration order is
abstracted to the canonical order produced by `List.dedup`. -/
def canonFrozenset (l : List String) : List String := l.dedup

/-- `CodeObject._find_output_variables`; `none` models raising
`MultipleDefinitionsError`, which happens exactly when the number of collected
names minus the number of imported ones exceeds 1. -/
def findOutputVariables (st : SymbolTable) : Option (List String) :=
  if (collectedOutputs st).length - numOutputImports st > 1 then none
  else some (canonFrozenset (collectedOutputs st))

/-- `SymbolWrapper.__repr__` (and hence `str` of a wrapper): the stable
bracketed rendering of a name. -/
def bracketed (s : String) : String := "[" ++ s ++ "]"

/-- Python's `"+".join`. -/
def joinPlus : List String → String
  | [] => ""
  | [s] => s
  | s :: rest => s ++ "+" ++ joinPlus rest

/-- The fields of `CodeObject` that construction fills. -/
structure CodeObject where
  code : String
  input_vars : List String
  output_vars : List String
  display_id : String
  deriving DecidableEq, Repr

/-- `CodeObject.__init__`.  The scope tree `st` is the result of
`symtable(code, '<string>', 'exec')` (the external scope resolver applied to
`code`), and `hexdigest` stands for the keyed digest
`blake2b(digest_size=10, key=key).update(utf8 input).hexdigest()` for the
caller's fixed key.  `none` models a raised `MultipleDefinitionsError`. -/
def mkCodeObject (hexdigest : String → String) (code : String) (st : SymbolTable)
    (ns_manager : List String) : Option CodeObject :=
  let input_vars := findInputVariables st ns_manager
  match findOutputVariables st with
  | none => none
  | some output_vars =>
    let display_id :=
      if output_vars.length > 0 then
        let joined := joinPlus (output_vars.map bracketed)
        joined ++ "-" ++ hexdigest joined
      else hexdigest code
    some { code := code, input_vars := input_vars, output_vars := output_vars,
           display_id := display_id }

mutual
/-- The symbols of the whole scope tree in depth-first traversal order:
the direct symbols of a scope first, then those of its children, in order. -/
def flattenSymbols : SymbolTable → List Symbol
  | .node syms children => syms ++ flattenSymbolsList children

/-- Depth-first flattening of a list of scopes. -/
def flattenSymbolsList : SymbolTableList → List Symbol
  | .nil => []
  | .cons st rest => flattenSymbols st ++ flattenSymbolsList rest
end

/-- The running imported-name collection after processing the symbols `pre`
in order, starting from `imports`: each imported symbol's name is recorded. -/
def importedUpTo (imports : List String) (pre : List Symbol) : List String :=
  pre.foldl (fun acc s => if s.is_imported then s.name :: acc else acc) imports

/-! ## Cell execution (`execute.py`)

Values flowing through cells are modelled as integers; expressions cover the
constructs the claims exercise (constants, names, addition, division), and
statements cover the node kinds `Executor._run_ast_nodes` distinguishes
(`Assign` with a target list, `AugAssign`, `AnnAssign`, expression statements,
and an inert statement).  Python's `exec`/`compile` is the embedded evaluator
over this language: `compile(ast.Module(...), 'exec')` runs statements for
their effects, `compile(ast.Interactive(...), 'single')` additionally routes
the value of an expression statement to `sys.displayhook`.  Runtime faults are
`ZeroDivisionError` (division by zero) and `NameError` (unbound name);
`ast.parse` failing is `MalformedSource` (`SyntaxError`). -/

/-- The runtime fault types the model can raise. -/
inductive ExcType where
  | zeroDivisionError
  | nameError
  | malformedSource
  deriving DecidableEq, Repr

/-- `ExecutionResult`, with the fields of `execute.py`.  The stdout/stderr
fields hold the text accumulated in the captured `StringIO` buffers (`none`
before `capture_io` installs them); the exception field holds the
type/value/traceback triple (never filled by the source, see the theorems). -/
structure ExecutionResult where
  stdout : Option String
  stderr : Option String
  has_output : Bool
  output : Option Int
  target_id : Option String
  has_exception : Bool
  exception : Option (String × String × String)
  deriving DecidableEq, Repr

/-- `ExecutionResult.__init__`: everything empty, flags down. -/
def ExecutionResult.init : ExecutionResult :=
  { stdout := none, stderr := none, has_output := false, output := none,
    target_id := none, has_exception := false, exception := none }

/-- `ExecutionResult.is_complete`.  The source also checks
`len(self.exception) == 3`; the triple type makes that length check hold
whenever the field is filled, so it reduces to presence. -/
def ExecutionResult.is_complete (r : ExecutionResult) : Bool :=
  r.stdout.isSome && r.stderr.isSome
    && (if r.has_output then r.output.isSome && r.target_id.isSome else true)
    && (if r.has_exception then r.exception.isSome else true)

/-- `ExecutionResult.capture_io`: store the (fresh, hence empty) captured
stdout and stderr buffers into the result. -/
def ExecutionResult.capture_io (r : ExecutionResult) (out err : String) :
    ExecutionResult :=
  { r with stdout := some out, stderr := some err }

/-- `ExecutionResult.displayhook`: store the displayed value; raise the
output flag only when the value is not `None`. -/
def ExecutionResult.displayhook (r : ExecutionResult) (result : Option Int) :
    ExecutionResult :=
  let r1 := { r with output := result }
  if r1.output.isSome then { r1 with has_output := true } else r1

/-- `print(text, file=sys.stderr)` while the captured buffer is installed:
append the text and a newline to the result's stderr buffer. -/
def printStderr (r : ExecutionResult) (s : String) : ExecutionResult :=
  { r with stderr := some ((r.stderr.getD "") ++ s ++ "\n") }

/-- What a process-wide stream/hook slot currently holds: the object that was
installed before a capture (`real`, distinguished by an id) or the per-call
buffer/handler a Capture Scope installs (`captured`). -/
inductive Chan where
  | real (id : Nat)
  | captured
  deriving DecidableEq, Repr

/-- The process-wide singletons that `CapturedIOCtx` and `CapturedDisplayCtx`
swap: `sys.stdout`, `sys.stderr`, `sys.displayhook`. -/
structure SysState where
  stdout : Chan
  stderr : Chan
  displayhook : Chan
  deriving DecidableEq, Repr

/-- The shared user namespace (`ns_manager.global_ns`), a name-to-value map
modelled as an association list read through `List.lookup`. -/
def Namespace := List (String × Int)
  deriving DecidableEq, Repr

/-- Namespace update: bind `x` to `v` (the most recent binding shadows, as in
a `dict` write observed through lookup). -/
def nsSet (ns : Namespace) (x : String) (v : Int) : Namespace :=
  ((x, v) :: ns : List (String × Int))

/-- Expressions of the embedded snippet language. -/
inductive Expr where
  | const (n : Int)
  | name (s : String)
  | binAdd (a b : Expr)
  | binDiv (a b : Expr)
  deriving DecidableEq, Repr

/-- Expression evaluation against the namespace.  An unbound name raises
`NameError`; division by zero raises `ZeroDivisionError` (division is modelled
on integers). -/
def evalExpr (ns : Namespace) : Expr → Except ExcType Int
  | .const n => Except.ok n
  | .name s =>
    match (ns : List (String × Int)).lookup s with
    | some v => Except.ok v
    | none => Except.error ExcType.nameError
  | .binAdd a b =>
    match evalExpr ns a with
    | Except.error e => Except.error e
    | Except.ok x =>
      match evalExpr ns b with
      | Except.error e => Except.error e
      | Except.ok y => Except.ok (x + y)
  | .binDiv a b =>
    match evalExpr ns a with
    | Except.error e => Except.error e
    | Except.ok x =>
      match evalExpr ns b with
      | Except.error e => Except.error e
      | Except.ok y => if y = 0 then Except.error ExcType.zeroDivisionError
                       else Except.ok (x / y)

/-- An assignment target: a bare identifier (`ast.Name`) or anything else
(tuple/attribute/subscript targets, which `_run_ast_nodes` does not treat as
a bindable output name). -/
inductive Target where
  | nameT (s : String)
  | otherTarget
  deriving DecidableEq, Repr

/-- Top-level statements, mirroring the `ast` node kinds `_run_ast_nodes`
distinguishes: `Assign` carries a target list; `AugAssign` and `AnnAssign`
carry a single target (`AnnAssign` may lack a value: a bare annotation). -/
inductive Stmt where
  | assign (targets : List Target) (value : Expr)
  | augAssign (target : Target) (value : Expr)
  | annAssign (target : Target) (value : Option Expr)
  | exprStmt (value : Expr)
  | passStmt
  deriving DecidableEq, Repr

/-- Membership in `_assign_nodes = (ast.AugAssign, ast.AnnAssign, ast.Assign)`. -/
def Stmt.isAssignNode : Stmt → Bool
  | .assign _ _ => true
  | .augAssign _ _ => true
  | .annAssign _ _ => true
  | _ => false

/-- Write `v` through an assignment target.  A non-name target does not bind
a top-level name in the flat namespace (attribute/subscript stores are outside
the modelled observables). -/
def assignTarget (ns : Namespace) (t : Target) (v : Int) : Namespace :=
  match t with
  | .nameT x => nsSet ns x v
  | .otherTarget => ns

/-- Effect of one statement on the namespace (the `exec` semantics of a single
statement).  Evaluation happens before any binding, so a raising statement
leaves the namespace untouched.  `AugAssign x += e` reads the current value
of `x` first; only the `+` operator is modelled. -/
def execStmt (ns : Namespace) : Stmt → Except ExcType Namespace
  | .assign ts e =>
    match evalExpr ns e with
    | Except.error e1 => Except.error e1
    | Except.ok v => Except.ok (ts.foldl (fun acc t => assignTarget acc t v) ns)
  | .augAssign t e =>
    match t with
    | .nameT x =>
      match (ns : List (String × Int)).lookup x with
      | none => Except.error ExcType.nameError
      | some old =>
        match evalExpr ns e with
        | Except.error e1 => Except.error e1
        | Except.ok v => Except.ok (nsSet ns x (old + v))
    | .otherTarget =>
      match evalExpr ns e with
      | Except.error e1 => Except.error e1
      | Except.ok _ => Except.ok ns
  | .annAssign t e? =>
    match e? with
    | none => Except.ok ns
    | some e =>
      match evalExpr ns e with
      | Except.error e1 => Except.error e1
      | Except.ok v => Except.ok (assignTarget ns t v)
  | .exprStmt e =>
    match evalExpr ns e with
    | Except.error e1 => Except.error e1
    | Except.ok _ => Except.ok ns
  | .passStmt => Except.ok ns

/-- The two compilation modes `_run_ast_nodes` uses: `'exec'` on an
`ast.Module` and `'single'` on an `ast.Interactive`. -/
inductive Mode where
  | execMode
  | singleMode
  deriving DecidableEq, Repr

/-- The in-flight state of one `run_cell` call while the Capture Scope is
installed: the shared namespace and the result being filled (whose stderr
field is the captured `sys.stderr` buffer and whose `displayhook` method is
the installed `sys.displayhook`). -/
structure CellState where
  ns : Namespace
  res : ExecutionResult
  deriving DecidableEq, Repr

/-- One step of executing compiled code: in `'single'` mode an expression
statement's value is routed to the installed displayhook (the result's);
every other statement (and every statement in `'exec'` mode) runs for its
namespace effect only. -/
def stepStmt (mode : Mode) (st : CellState) (s : Stmt) : Except ExcType CellState :=
  match mode, s with
  | Mode.singleMode, Stmt.exprStmt e =>
    match evalExpr st.ns e with
    | Except.error e1 => Except.error e1
    | Except.ok v => Except.ok { st with res := st.res.displayhook (some v) }
  | _, _ =>
    match execStmt st.ns s with
    | Except.error e1 => Except.error e1
    | Except.ok ns1 => Except.ok { st with ns := ns1 }

/-- Running a compiled unit statement by statement; the first fault aborts,
keeping the effects of the statements already executed. -/
def runCompiled (mode : Mode) (st : CellState) : List Stmt → CellState × Option ExcType
  | [] => (st, none)
  | s :: rest =>
    match stepStmt mode st s with
    | Except.ok st1 => runCompiled mode st1 rest
    | Except.error e => (st, some e)

/-- The text the external traceback renderer (`InteractiveTB.stb2text`)
produces for a runtime fault; modelled minimally but non-empty. -/
def stb2text (e : ExcType) : String :=
  "Traceback (most recent call last): " ++
    (match e with
     | ExcType.zeroDivisionError => "ZeroDivisionError"
     | ExcType.nameError => "NameError"
     | ExcType.malformedSource => "SyntaxError")

/-- `Executor._run_code`: run one compiled unit; on any fault render the
traceback to the captured stderr and return `outflag = true`, otherwise
`false`.  The save/restore of `sys.excepthook` around the `exec` has no
observable effect in the model (embedded code cannot reach it). -/
def runCode (mode : Mode) (st : CellState) (stmts : List Stmt) : CellState × Bool :=
  match runCompiled mode st stmts with
  | (st1, none) => (st1, false)
  | (st1, some e) => ({ st1 with res := printStderr st1.res (stb2text e) }, true)

/-- The target the source extracts from the last statement when it is an
assignment node: the single target of a one-target `Assign`, or the target of
an `AugAssign`/`AnnAssign`; `none` for a multi-target `Assign`. -/
def lastAssignTarget : Stmt → Option Target
  | .assign ts _ =>
    match ts with
    | [t] => some t
    | _ => none
  | .augAssign t _ => some t
  | .annAssign t _ => some t
  | _ => none

/-- The output name step 2 of `run_cell` derives from the last statement:
some bare identifier `N` iff the statement is a single-target assignment node
whose target is a bare name. -/
def syntheticName (s : Stmt) : Option String :=
  if s.isAssignNode then
    match lastAssignTarget s with
    | some (Target.nameT x) => some x
    | _ => none
  else none

/-- Step 2 of `_run_ast_nodes` on a non-empty node list: when the last
statement yields an output name `N`, append the synthetic trailing expression
statement `N` and record the name. -/
def extendNodes (nodelist : List Stmt) : List Stmt × Option String :=
  match nodelist.getLast? with
  | none => (nodelist, none)
  | some lastS =>
    match syntheticName lastS with
    | some x => (nodelist ++ [Stmt.exprStmt (Expr.name x)], some x)
    | none => (nodelist, none)

/-- Step 3 of `_run_ast_nodes`: a trailing bare-expression statement is the
display portion (`nodelist[-1:]`), everything before it the batch portion
(`nodelist[:-1]`); otherwise everything is batch. -/
def splitNodes (nodelist : List Stmt) : List Stmt × List Stmt :=
  match nodelist.getLast? with
  | some (Stmt.exprStmt e) => (nodelist.dropLast, [Stmt.exprStmt e])
  | _ => (nodelist, [])

/-- The `for node in to_run_interactive` loop: each display node is compiled
as its own `'single'` unit; the first failing unit aborts the loop. -/
def runInteractive (st : CellState) : List Stmt → CellState × Bool
  | [] => (st, false)
  | node :: rest =>
    let b := runCode Mode.singleMode st [node]
    if b.2 then (b.1, true) else runInteractive b.1 rest

/-- The body of `_run_ast_nodes` after the emptiness check, on the already
extended node list with its derived output name: run the batch portion as one
`'exec'` unit, and only if it succeeded run the display portion. -/
def runAstNodesCore (st : CellState) (extended : List Stmt)
    (output_name : Option String) : CellState × Bool × Option String :=
  let q := splitNodes extended
  let b := runCode Mode.execMode st q.1
  if b.2 then (b.1, true, output_name)
  else
    let c := runInteractive b.1 q.2
    (c.1, c.2, output_name)

/-- `Executor._run_ast_nodes`: an empty node list reports failure immediately
(`return True, None`); otherwise extend, split, and run. -/
def runAstNodes (st : CellState) (nodelist : List Stmt) :
    CellState × Bool × Option String :=
  match nodelist with
  | [] => (st, true, none)
  | _ :: _ => runAstNodesCore st (extendNodes nodelist).1 (extendNodes nodelist).2

/-- `Executor.run_cell`.  The `parsed` argument is the outcome of
`ast.parse(code, filename=name, mode='exec')` on the submitted source:
`some body` on success, `none` when the parser raises (`MalformedSource`).
The call threads the process singletons: `CapturedIOCtx`/`CapturedDisplayCtx`
save them, install the per-call buffers and hook, and restore them on every
exit; a parse fault therefore still restores the singletons but escapes the
call (modelled by the `Except.error`).  On the normal path the result's
failure flag and bound name are set from `_run_ast_nodes`. -/
def run_cell (parsed : Option (List Stmt)) (_name : String) (sys : SysState)
    (ns : Namespace) : SysState × Except ExcType (Namespace × ExecutionResult) :=
  let savedOut := sys.stdout
  let savedErr := sys.stderr
  let savedHook := sys.displayhook
  let r1 := ExecutionResult.init.capture_io "" ""
  match parsed with
  | none =>
    ({ stdout := savedOut, stderr := savedErr, displayhook := savedHook },
     Except.error ExcType.malformedSource)
  | some body =>
    let t := runAstNodes { ns := ns, res := r1 } body
    let r2 := { t.1.res with has_exception := t.2.1, target_id := t.2.2 }
    ({ stdout := savedOut, stderr := savedErr, displayhook := savedHook },
     Except.ok (t.1.ns, r2))

/-- The observable outcome of awaiting the coroutine handed to
`run_coroutine`: it resolves to a value or raises a fault of some type
(identified by the type's name). -/
inductive CoOutcome where
  | resolves (v : Int)
  | raises (e : String)
  deriving DecidableEq, Repr

/-- The rendered traceback text for a fault raised out of the awaited
coroutine (again `InteractiveTB.stb2text`, modelled minimally). -/
def stb2textName (e : String) : String :=
  "Traceback (most recent call last): " ++ e

/-- `Executor.run_coroutine`.  A fresh result gets `target_id` before the
Capture Scope opens; inside it the failure flag is pre-set.  A resolved value
is stored, the flag cleared, and the namespace updated.  A fault whose type is
in `nohandle_exceptions` is re-raised (the `with` exits restore the singletons
first, then the fault escapes: the `Except.error` branch).  Any other fault is
rendered to the captured stderr and the failed result is returned; the
namespace is untouched. -/
def run_coroutine (co : CoOutcome) (variable_name : String)
    (nohandle_exceptions : List String) (sys : SysState) (ns : Namespace) :
    SysState × Namespace × Except String ExecutionResult :=
  let r0 := { ExecutionResult.init with target_id := some variable_name }
  let savedOut := sys.stdout
  let savedErr := sys.stderr
  let savedHook := sys.displayhook
  let r1 := r0.capture_io "" ""
  let r2 := { r1 with has_exception := true }
  match co with
  | CoOutcome.resolves v =>
    let r3 := { r2 with output := some v, has_exception := false }
    ({ stdout := savedOut, stderr := savedErr, displayhook := savedHook },
     nsSet ns variable_name v, Except.ok r3)
  | CoOutcome.raises e =>
    if nohandle_exceptions.contains e then
      ({ stdout := savedOut, stderr := savedErr, displayhook := savedHook },
       ns, Except.error e)
    else
      ({ stdout := savedOut, stderr := savedErr, displayhook := savedHook },
       ns, Except.ok (printStderr r2 (stb2textName e)))

/-- Namespace lookup (reading a name out of `global_ns`). -/
def nsGet (ns : Namespace) (x : String) : Option Int :=
  (ns : List (String × Int)).lookup x

/-! ## Concrete instances used by the example-level theorems -/

/-- Some pre-existing process streams/hook, to observe capture and restore. -/
def sys0 : SysState := { stdout := Chan.real 1, stderr := Chan.real 2, displayhook := Chan.real 3 }

/-- A non-empty starting namespace, to observe that it is left unchanged. -/
def nsA : Namespace := [("a", 7)]

/-- Scope tree of `"a = 1\nb = 2"`: two assigned module-level names. -/
def treeAB : SymbolTable :=
  SymbolTable.node [⟨"a", false, false, true⟩, ⟨"b", false, false, true⟩] SymbolTableList.nil

/-- Scope tree of `"import os\nimport sys"`: two imported module-level names
(imports are local bindings at module scope, not global references). -/
def treeImportsOsSys : SymbolTable :=
  SymbolTable.node [⟨"os", true, false, false⟩, ⟨"sys", true, false, false⟩] SymbolTableList.nil

/-- Scope tree of `"y = x + 1"`: `y` assigned (module-local), `x` a global
reference. -/
def treeYX : SymbolTable :=
  SymbolTable.node [⟨"y", false, false, true⟩, ⟨"x", false, true, false⟩] SymbolTableList.nil

/-- Scope tree of `"def f():\n    return x\nf(x)"`: at module scope `f` is
assigned and `x` is a global reference; inside the function scope of `f`, `x`
is again a global reference. -/
def treeDupInput : SymbolTable :=
  SymbolTable.node [⟨"f", false, false, true⟩, ⟨"x", false, true, false⟩]
    (SymbolTableList.cons
      (SymbolTable.node [⟨"x", false, true, false⟩] SymbolTableList.nil)
      SymbolTableList.nil)

/-- Scope tree of a snippet assigning only `x` (such as `"x = 1"` or
`"x = 2"`). -/
def treeXAssign : SymbolTable :=
  SymbolTable.node [⟨"x", false, false, true⟩] SymbolTableList.nil

/-- A stand-in keyed digest for example-level theorems (any function of the
digest input may instantiate the `hexdigest` parameter). -/
def wHexDigest (s : String) : String := s

/-- The Code Unit produced for source `"x = 1"` under `wHexDigest`. -/
def wCO1 : CodeObject :=
  { code := "x = 1", input_vars := [], output_vars := ["x"], display_id := "[x]-[x]" }

/-- The Code Unit produced for source `"x = 2"` under `wHexDigest`: a
different body, the same output name, the same identity. -/
def wCO2 : CodeObject :=
  { code := "x = 2", input_vars := [], output_vars := ["x"], display_id := "[x]-[x]" }

/-- The statement `1/0`. -/
def stmtDivZero : Stmt := Stmt.exprStmt (Expr.binDiv (Expr.const 1) (Expr.const 0))

/-- The statement `2` (a bare constant expression). -/
def stmtTwo : Stmt := Stmt.exprStmt (Expr.const 2)

/-- An in-flight cell state as it exists right after the Capture Scope opens:
empty namespace, fresh result holding the empty captured buffers. -/
def cs0 : CellState := { ns := [], res := ExecutionResult.init.capture_io "" "" }

/-- The result `run_cell` reports for a source parsing to zero statements. -/
def emptyCellResult : ExecutionResult :=
  { stdout := some "", stderr := some "", has_output := false, output := none,
    target_id := none, has_exception := true, exception := none }

/-! ## Helper lemmas -/

/-- `_run_ast_nodes` reports the derived output name on every exit path of
its post-emptiness body. -/
theorem runAstNodesCore_name (st : CellState) (extended : List Stmt)
    (output_name : Option String) :
    (runAstNodesCore st extended output_name).2.2 = output_name := by
  simp only [runAstNodesCore]
  split <;> rfl

/-- Scanning a concatenation of symbol runs threads the running imports from
the first run into the second and concatenates the yields. -/
theorem scanSymbols_append (ns_manager : List String) :
    ∀ (a b : List Symbol) (imports : List String),
      scanSymbols (a ++ b) imports ns_manager =
        ((scanSymbols a imports ns_manager).1 ++
          (scanSymbols b (scanSymbols a imports ns_manager).2 ns_manager).1,
         (scanSymbols b (scanSymbols a imports ns_manager).2 ns_manager).2) := by
  intro a
  induction a with
  | nil => intro b imports; simp [scanSymbols]
  | cons s rest ih =>
    intro b imports
    simp only [List.cons_append, scanSymbols, List.append_eq]
    rw [ih]
    simp [List.append_assoc]

mutual
/-- The depth-first generator of `_find_symbol_tables` behaves exactly like
the single-scope scan run over the depth-first flattening of the tree, with
one running imports collection threaded through everything. -/
theorem findSymbolTables_eq_scan (st : SymbolTable) :
    ∀ (imports ns_manager : List String),
      findSymbolTables st imports ns_manager =
        scanSymbols (flattenSymbols st) imports ns_manager := by
  cases st with
  | node syms children =>
    intro imports ns_manager
    simp only [findSymbolTables, flattenSymbols, scanSymbols_append,
      findSymbolTablesChildren_eq_scan children]

/-- The child-list traversal seen through the flattening. -/
theorem findSymbolTablesChildren_eq_scan (l : SymbolTableList) :
    ∀ (imports ns_manager : List String),
      findSymbolTablesChildren l imports ns_manager =
        scanSymbols (flattenSymbolsList l) imports ns_manager := by
  cases l with
  | nil => intro imports ns_manager; simp [findSymbolTablesChildren, flattenSymbolsList, scanSymbols]
  | cons st rest =>
    intro imports ns_manager
    simp only [findSymbolTablesChildren, flattenSymbolsList, scanSymbols_append,
      findSymbolTables_eq_scan st, findSymbolTablesChildren_eq_scan rest]
end

/-- The input list is the flat depth-first scan started with no imports. -/
theorem findInputVariables_eq_scan (st : SymbolTable) (ns_manager : List String) :
    findInputVariables st ns_manager =
      (scanSymbols (flattenSymbols st) [] ns_manager).1 := by
  simp [findInputVariables, findSymbolTables_eq_scan]

/-- Membership in the yields of the flat scan: a name is yielded iff some
symbol occurrence carries it with the global flag, outside the builtin
registry, and outside the names imported up to and including that occurrence. -/
theorem mem_scanSymbols (ns_manager : List String) :
    ∀ (syms : List Symbol) (imports : List String) (x : String),
      x ∈ (scanSymbols syms imports ns_manager).1 ↔
        ∃ pre s post, syms = pre ++ s :: post ∧ s.name = x ∧ s.is_global = true ∧
          ns_manager.contains x = false ∧
          (importedUpTo imports (pre ++ [s])).contains x = false := by
  intro syms
  induction syms with
  | nil =>
    intro imports x
    constructor
    · intro hx; simp [scanSymbols] at hx
    · rintro ⟨pre, s, post, h, -⟩
      cases pre <;> simp at h
  | cons a rest ih =>
    intro imports x
    constructor
    · intro hx
      simp only [scanSymbols, List.mem_append] at hx
      rcases hx with h1 | h2
      · by_cases hk : (a.is_global && !(ns_manager.contains a.name)
            && !((if a.is_imported then a.name :: imports else imports).contains a.name)) = true
        · rw [if_pos hk] at h1
          simp only [List.mem_singleton] at h1
          subst h1
          simp only [Bool.and_eq_true, Bool.not_eq_true'] at hk
          exact ⟨[], a, rest, rfl, rfl, hk.1.1, hk.1.2, hk.2⟩
        · rw [if_neg hk] at h1
          exact absurd h1 (List.not_mem_nil x)
      · rcases (ih _ x).mp h2 with ⟨pre, s, post, hrest, hname, hg, hr, himp⟩
        exact ⟨a :: pre, s, post, by rw [List.cons_append, hrest], hname, hg, hr, himp⟩
    · rintro ⟨pre, s, post, heq, hname, hg, hr, himp⟩
      simp only [scanSymbols, List.mem_append]
      cases pre with
      | nil =>
        simp only [List.nil_append, List.cons.injEq] at heq
        obtain ⟨h1, -⟩ := heq
        subst h1
        subst hname
        left
        have hk : (a.is_global && !(ns_manager.contains a.name)
            && !((if a.is_imported then a.name :: imports else imports).contains a.name)) = true := by
          simp only [Bool.and_eq_true, Bool.not_eq_true']
          exact ⟨⟨hg, hr⟩, himp⟩
        rw [if_pos hk]
        exact List.mem_singleton.mpr rfl
      | cons p pre2 =>
        simp only [List.cons_append, List.cons.injEq] at heq
        obtain ⟨h1, h2⟩ := heq
        subst h1
        right
        exact (ih _ x).mpr ⟨pre2, s, post, h2, hname, hg, hr, himp⟩

/-- `displayhook` touches only the output value and flag. -/
theorem displayhook_stdout (r : ExecutionResult) (v : Option Int) :
    (r.displayhook v).stdout = r.stdout := by
  simp only [ExecutionResult.displayhook]
  split <;> rfl

/-- `displayhook` touches only the output value and flag. -/
theorem displayhook_stderr (r : ExecutionResult) (v : Option Int) :
    (r.displayhook v).stderr = r.stderr := by
  simp only [ExecutionResult.displayhook]
  split <;> rfl

/-- A successfully executed statement never touches the captured stdout or
stderr text of the result being built. -/
theorem stepStmt_res (mode : Mode) (st : CellState) (s : Stmt) (st1 : CellState)
    (h : stepStmt mode st s = Except.ok st1) :
    st1.res.stdout = st.res.stdout ∧ st1.res.stderr = st.res.stderr := by
  cases mode <;> cases s <;>
    simp only [stepStmt] at h <;>
    split at h <;>
    first
      | exact Except.noConfusion h
      | (injection h with h2; subst h2; exact ⟨rfl, rfl⟩)

/-- Running a compiled unit never touches the captured stdout or stderr. -/
theorem runCompiled_res (mode : Mode) :
    ∀ (stmts : List Stmt) (st : CellState),
      (runCompiled mode st stmts).1.res.stdout = st.res.stdout ∧
      (runCompiled mode st stmts).1.res.stderr = st.res.stderr := by
  intro stmts
  induction stmts with
  | nil => intro st; simp [runCompiled]
  | cons s rest ih =>
    intro st
    simp only [runCompiled]
    cases h : stepStmt mode st s with
    | error e => simp
    | ok st1 =>
      have h2 := stepStmt_res mode st s st1 h
      have h3 := ih st1
      exact ⟨h3.1.trans h2.1, h3.2.trans h2.2⟩

/-- `_run_code` preserves the captured stdout; the captured stderr is either
untouched or holds text (the rendered traceback was appended to it). -/
theorem runCode_res (mode : Mode) (stmts : List Stmt) (st : CellState) :
    (runCode mode st stmts).1.res.stdout = st.res.stdout ∧
    ((runCode mode st stmts).1.res.stderr = st.res.stderr ∨
      ((runCode mode st stmts).1.res.stderr).isSome = true) := by
  have h0 := runCompiled_res mode stmts st
  simp only [runCode]
  cases h : runCompiled mode st stmts with
  | mk st1 oe =>
    rw [h] at h0
    cases oe with
    | none => exact ⟨h0.1, Or.inl h0.2⟩
    | some e => exact ⟨h0.1, Or.inr rfl⟩

/-- Chaining two stdout/stderr preservation facts. -/
theorem resPres_trans (r1 r2 r3 : ExecutionResult)
    (a : r2.stdout = r1.stdout ∧ (r2.stderr = r1.stderr ∨ r2.stderr.isSome = true))
    (b : r3.stdout = r2.stdout ∧ (r3.stderr = r2.stderr ∨ r3.stderr.isSome = true)) :
    r3.stdout = r1.stdout ∧ (r3.stderr = r1.stderr ∨ r3.stderr.isSome = true) := by
  refine ⟨b.1.trans a.1, ?_⟩
  rcases b.2 with hb | hb
  · rcases a.2 with ha | ha
    · exact Or.inl (hb.trans ha)
    · exact Or.inr (by rw [hb]; exact ha)
  · exact Or.inr hb

/-- The display loop preserves the captured stdout; the captured stderr is
either untouched or holds text. -/
theorem runInteractive_res :
    ∀ (stmts : List Stmt) (st : CellState),
      (runInteractive st stmts).1.res.stdout = st.res.stdout ∧
      ((runInteractive st stmts).1.res.stderr = st.res.stderr ∨
        ((runInteractive st stmts).1.res.stderr).isSome = true) := by
  intro stmts
  induction stmts with
  | nil => intro st; simp [runInteractive]
  | cons node rest ih =>
    intro st
    have hc := runCode_res Mode.singleMode [node] st
    simp only [runInteractive]
    by_cases hb : (runCode Mode.singleMode st [node]).2 = true
    · simp only [hb, if_true]
      exact hc
    · rw [Bool.not_eq_true] at hb
      simp only [hb, Bool.false_eq_true, if_false]
      exact resPres_trans _ _ _ hc (ih (runCode Mode.singleMode st [node]).1)

/-- `_run_ast_nodes` preserves the captured stdout; the captured stderr is
either untouched or holds text. -/
theorem runAstNodes_res (nodelist : List Stmt) (st : CellState) :
    (runAstNodes st nodelist).1.res.stdout = st.res.stdout ∧
    ((runAstNodes st nodelist).1.res.stderr = st.res.stderr ∨
      ((runAstNodes st nodelist).1.res.stderr).isSome = true) := by
  cases nodelist with
  | nil => simp [runAstNodes]
  | cons a rest =>
    simp only [runAstNodes, runAstNodesCore]
    have hc := runCode_res Mode.execMode
      (splitNodes (extendNodes (a :: rest)).1).1 st
    by_cases hb : (runCode Mode.execMode st (splitNodes (extendNodes (a :: rest)).1).1).2 = true
    · simp only [hb, if_true]
      exact hc
    · rw [Bool.not_eq_true] at hb
      simp only [hb, Bool.false_eq_true, if_false]
      exact resPres_trans _ _ _ hc
        (runInteractive_res (splitNodes (extendNodes (a :: rest)).1).2
          (runCode Mode.execMode st (splitNodes (extendNodes (a :: rest)).1).1).1)

/-! ## Claims -/

/-- C1, corrected.  As stated the claim is false (see the counterexample:
a parse failure escapes `run_cell`).  Amended claim, proved here: for every
source that parses, `run_cell` returns normally — execution-time failures are
reported only through the returned result, never thrown — and the process
streams are restored. -/
theorem claim_C1 :
    ∀ (body : List Stmt) (name : String) (sys : SysState) (ns : Namespace),
      ∃ p, run_cell (some body) name sys ns = (sys, Except.ok p) :=
  fun _body _name _sys _ns => ⟨_, rfl⟩

/-- C1 counterexample: on a source that fails to parse (`parsed = none`,
i.e. `ast.parse` raises), `run_cell` does not return a failed result: the
parse fault propagates to the caller (the `Except.error` outcome), because
`ast.parse` is called outside any handler in `Executor.run_cell`. -/
theorem claim_C1_counterexample :
    run_cell none "cell" sys0 ([] : Namespace) =
      (sys0, Except.error ExcType.malformedSource) := by
  rfl

/-- C10, confirmed: for every source that parses to an empty statement list,
`run_cell` reports a result whose failure flag is raised even though nothing
ran — with no exception triple and no bound name (and untouched namespace),
since `_run_ast_nodes` returns `True, None` for an empty node list. -/
theorem claim_C10 :
    ∀ (name : String) (sys : SysState) (ns : Namespace),
      run_cell (some []) name sys ns = (sys, Except.ok (ns, emptyCellResult)) :=
  fun _name _sys _ns => rfl

/-- C9, confirmed: the Capture Scope restores the saved stdout, stderr and
display hook on every exit path — after `run_coroutine` (all outcomes,
including a propagated signal) and after `run_cell` (including a parse
fault) — and a fault whose type is in the propagate set is re-raised with the
namespace untouched. -/
theorem claim_C9 :
    (∀ (co : CoOutcome) (vname : String) (nohandle : List String)
        (sys : SysState) (ns : Namespace),
        (run_coroutine co vname nohandle sys ns).1 = sys)
    ∧ (∀ (parsed : Option (List Stmt)) (name : String) (sys : SysState)
        (ns : Namespace), (run_cell parsed name sys ns).1 = sys)
    ∧ (∀ (e vname : String) (nohandle : List String) (sys : SysState)
        (ns : Namespace), nohandle.contains e = true →
        run_coroutine (CoOutcome.raises e) vname nohandle sys ns =
          (sys, ns, Except.error e)) := by
  refine ⟨?_, ?_, ?_⟩
  · intro co vname nohandle sys ns
    cases co with
    | resolves v => rfl
    | raises e =>
      simp only [run_coroutine]
      split <;> rfl
  · intro parsed name sys ns
    cases parsed <;> rfl
  · intro e vname nohandle sys ns h
    simp only [run_coroutine, h, if_true]

/-- C9 witness: a coroutine raising `CancelType` with `CancelType` in the
propagate set re-raises it; namespace and streams are as before. -/
theorem claim_C9_witness :
    ((["CancelType"] : List String).contains "CancelType" = true)
    ∧ run_coroutine (CoOutcome.raises "CancelType") "z" ["CancelType"] sys0 nsA =
        (sys0, nsA, Except.error "CancelType") :=
  ⟨by decide, claim_C9.2.2 "CancelType" "z" ["CancelType"] sys0 nsA (by decide)⟩

/-- C8, confirmed: a resolved coroutine value is bound to the requested name
in the namespace and reported as a successful result (failure flag down,
value recorded as the result's output); a fault outside the propagate set is
rendered into the captured stderr and reported as a failed result with the
namespace untouched; and `runCoroutine(resolvesTo(5), "z", {})` leaves the
namespace with `z = 5`. -/
theorem claim_C8 :
    (∀ (v : Int) (vname : String) (nohandle : List String) (sys : SysState)
        (ns : Namespace),
        run_coroutine (CoOutcome.resolves v) vname nohandle sys ns =
          (sys, nsSet ns vname v, Except.ok
            { stdout := some "", stderr := some "", has_output := false,
              output := some v, target_id := some vname, has_exception := false,
              exception := none }))
    ∧ (∀ (e vname : String) (nohandle : List String) (sys : SysState)
        (ns : Namespace), nohandle.contains e = false →
        run_coroutine (CoOutcome.raises e) vname nohandle sys ns =
          (sys, ns, Except.ok
            { stdout := some "", stderr := some ("" ++ stb2textName e ++ "\n"),
              has_output := false, output := none, target_id := some vname,
              has_exception := true, exception := none }))
    ∧ nsGet (run_coroutine (CoOutcome.resolves 5) "z" [] sys0 []).2.1 "z" = some 5 := by
  refine ⟨fun v vname nohandle sys ns => rfl, ?_, by rfl⟩
  intro e vname nohandle sys ns h
  simp only [run_coroutine, h, Bool.false_eq_true, if_false]
  rfl

/-- C8 witness: a coroutine raising `ValueError`, not in the propagate set,
is captured and rendered; the namespace keeps its prior bindings. -/
theorem claim_C8_witness :
    ((["CancelType"] : List String).contains "ValueError" = false)
    ∧ run_coroutine (CoOutcome.raises "ValueError") "z" ["CancelType"] sys0 nsA =
        (sys0, nsA, Except.ok
          { stdout := some "", stderr := some ("" ++ stb2textName "ValueError" ++ "\n"),
            has_output := false, output := none, target_id := some "z",
            has_exception := true, exception := none }) :=
  ⟨by decide, claim_C8.2.1 "ValueError" "z" ["CancelType"] sys0 nsA (by decide)⟩

/-- C6, confirmed: when the last statement is a single-target assignment node
whose target is the bare identifier `N`, step 2 appends the synthetic trailing
expression `N` and `N` is reported as the result's bound name; concretely,
`runCell("x = 1 + 1", "cell1")` on an empty namespace reports no failure,
bound name `"x"`, displayed value `2`, and a namespace mapping `x` to `2`. -/
theorem claim_C6 :
    (∀ (nodelist : List Stmt) (lastS : Stmt) (x : String) (st : CellState),
        nodelist.getLast? = some lastS → syntheticName lastS = some x →
        extendNodes nodelist = (nodelist ++ [Stmt.exprStmt (Expr.name x)], some x)
        ∧ (runAstNodes st nodelist).2.2 = some x)
    ∧ run_cell
        (some [Stmt.assign [Target.nameT "x"] (Expr.binAdd (Expr.const 1) (Expr.const 1))])
        "cell1" sys0 ([] : Namespace) =
      (sys0, Except.ok (([("x", 2)] : Namespace),
        { stdout := some "", stderr := some "", has_output := true, output := some 2,
          target_id := some "x", has_exception := false, exception := none }))
    ∧ nsGet ([("x", 2)] : Namespace) "x" = some 2 := by
  refine ⟨?_, by rfl, by rfl⟩
  intro nodelist lastS x st h1 h2
  have hext : extendNodes nodelist =
      (nodelist ++ [Stmt.exprStmt (Expr.name x)], some x) := by
    simp only [extendNodes, h1, h2]
  refine ⟨hext, ?_⟩
  cases nodelist with
  | nil => simp at h1
  | cons a rest =>
    simp only [runAstNodes, runAstNodesCore_name, hext]

/-- C6 witness: instantiating the general part at the single assignment
`y = 3`. -/
theorem claim_C6_witness :
    (([Stmt.assign [Target.nameT "y"] (Expr.const 3)] : List Stmt).getLast? =
        some (Stmt.assign [Target.nameT "y"] (Expr.const 3))
      ∧ syntheticName (Stmt.assign [Target.nameT "y"] (Expr.const 3)) = some "y")
    ∧ (extendNodes [Stmt.assign [Target.nameT "y"] (Expr.const 3)] =
        ([Stmt.assign [Target.nameT "y"] (Expr.const 3),
          Stmt.exprStmt (Expr.name "y")], some "y")
      ∧ (runAstNodes cs0 [Stmt.assign [Target.nameT "y"] (Expr.const 3)]).2.2 = some "y") :=
  ⟨⟨by decide, by decide⟩,
    claim_C6.1 [Stmt.assign [Target.nameT "y"] (Expr.const 3)]
      (Stmt.assign [Target.nameT "y"] (Expr.const 3)) "y" cs0 (by decide) (by decide)⟩

/-- C7, confirmed: if the batch portion of the (extended, split) node list
fails, `_run_ast_nodes` stops right there — the display portion is never run,
the state is exactly the batch state with the rendered failure, and the run is
reported failed; concretely `runCell("1/0", "cell2")` reports a failed result
with non-empty captured stderr and leaves the namespace unchanged. -/
theorem claim_C7 :
    (∀ (st : CellState) (a : Stmt) (rest : List Stmt),
        (runCode Mode.execMode st (splitNodes (extendNodes (a :: rest)).1).1).2 = true →
        runAstNodes st (a :: rest) =
          ((runCode Mode.execMode st (splitNodes (extendNodes (a :: rest)).1).1).1, true,
            (extendNodes (a :: rest)).2))
    ∧ run_cell (some [stmtDivZero]) "cell2" sys0 nsA =
      (sys0, Except.ok (nsA,
        { stdout := some "",
          stderr := some "Traceback (most recent call last): ZeroDivisionError\n",
          has_output := false, output := none, target_id := none,
          has_exception := true, exception := none })) := by
  refine ⟨?_, by rfl⟩
  intro st a rest hfail
  simp only [runAstNodes, runAstNodesCore, hfail, if_true]

/-- C7 witness: instantiating the general part where the batch portion is the
failing `1/0` and the display portion (`2`) is skipped. -/
theorem claim_C7_witness :
    ((runCode Mode.execMode cs0 (splitNodes (extendNodes [stmtDivZero, stmtTwo]).1).1).2 = true)
    ∧ runAstNodes cs0 [stmtDivZero, stmtTwo] =
        ((runCode Mode.execMode cs0 (splitNodes (extendNodes [stmtDivZero, stmtTwo]).1).1).1,
          true, (extendNodes [stmtDivZero, stmtTwo]).2) :=
  ⟨by decide, claim_C7.1 cs0 stmtDivZero [stmtTwo] (by decide)⟩

/-- C4, confirmed: output collection takes every module-scope symbol that is
assigned or imported; construction raises `MultipleDefinitionsError` exactly
when the collected count minus the import count exceeds one, and otherwise
returns the full collected set; `"a = 1\nb = 2"` fails while
`"import os\nimport sys"` yields an output set of size 2. -/
theorem claim_C4 :
    (∀ st : SymbolTable,
        (findOutputVariables st = none ↔
          (collectedOutputs st).length - numOutputImports st > 1)
        ∧ ((collectedOutputs st).length - numOutputImports st ≤ 1 →
            findOutputVariables st = some (canonFrozenset (collectedOutputs st))))
    ∧ findOutputVariables treeAB = none
    ∧ (findOutputVariables treeImportsOsSys = some ["os", "sys"]
        ∧ (["os", "sys"] : List String).length = 2) := by
  refine ⟨?_, by decide, by decide, by decide⟩
  intro st
  constructor
  · by_cases h : (collectedOutputs st).length - numOutputImports st > 1
    · simp [findOutputVariables, h]
    · simp [findOutputVariables, h]
  · intro h
    have h2 : ¬ ((collectedOutputs st).length - numOutputImports st > 1) := by omega
    simp [findOutputVariables, h2]

/-- C4 witness: instantiating the no-failure branch at the tree of
`"y = x + 1"` (one assigned name, no imports). -/
theorem claim_C4_witness :
    ((collectedOutputs treeYX).length - numOutputImports treeYX ≤ 1)
    ∧ findOutputVariables treeYX = some (canonFrozenset (collectedOutputs treeYX)) :=
  ⟨by decide, (claim_C4.1 treeYX).2 (by decide)⟩

/-- C3, confirmed: when the output set is non-empty the identity is the
bracketed output names joined by `+`, followed by `-` and the keyed digest of
that joined string only (the source body does not enter the digest); when the
output set is empty the identity is the digest of the raw source text alone.
Consequently two constructions with identical non-empty output-name sets under
the same key have equal identities even for different sources. -/
theorem claim_C3 :
    (∀ (hexdigest : String → String) (code : String) (st : SymbolTable)
        (ns_manager : List String) (o : CodeObject),
        mkCodeObject hexdigest code st ns_manager = some o →
        (o.output_vars ≠ [] →
          o.display_id = joinPlus (o.output_vars.map bracketed) ++ "-" ++
            hexdigest (joinPlus (o.output_vars.map bracketed)))
        ∧ (o.output_vars = [] → o.display_id = hexdigest code))
    ∧ (∀ (hexdigest : String → String) (c1 c2 : String) (t1 t2 : SymbolTable)
        (r1 r2 : List String) (o1 o2 : CodeObject),
        mkCodeObject hexdigest c1 t1 r1 = some o1 →
        mkCodeObject hexdigest c2 t2 r2 = some o2 →
        o1.output_vars = o2.output_vars → o1.output_vars ≠ [] →
        o1.display_id = o2.display_id) := by
  have key : ∀ (hexdigest : String → String) (code : String) (st : SymbolTable)
      (ns_manager : List String) (o : CodeObject),
      mkCodeObject hexdigest code st ns_manager = some o →
      (o.output_vars ≠ [] →
        o.display_id = joinPlus (o.output_vars.map bracketed) ++ "-" ++
          hexdigest (joinPlus (o.output_vars.map bracketed)))
      ∧ (o.output_vars = [] → o.display_id = hexdigest code) := by
    intro hexdigest code st ns_manager o h
    cases hfo : findOutputVariables st with
    | none => simp [mkCodeObject, hfo] at h
    | some ov =>
      simp only [mkCodeObject, hfo, Option.some.injEq] at h
      subst h
      constructor
      · intro hne
        have hl : ov.length > 0 := List.length_pos.mpr hne
        simp [hl]
      · intro he
        subst he
        simp
  refine ⟨key, ?_⟩
  intro hexdigest c1 c2 t1 t2 r1 r2 o1 o2 h1 h2 houts hne
  have k1 := (key hexdigest c1 t1 r1 o1 h1).1 hne
  have k2 := (key hexdigest c2 t2 r2 o2 h2).1 (by rw [← houts]; exact hne)
  rw [k1, k2, houts]

/-- C5, corrected.  As stated the claim is false: the input list is NOT
deduplicated (see the counterexample).  Amended claim, proved here: the
traversal yields exactly the flat depth-first scan with one running imports
collection, so a name is an input iff at some symbol occurrence (in
depth-first order) it is a global reference, not in the builtin registry, and
not among the names imported up to and including that occurrence — one entry
per qualifying occurrence, in traversal order, without deduplication; and
`Construct("y = x + 1", key, registryExcluding x)` yields inputs `["x"]` and
output `{"y"}`. -/
theorem claim_C5 :
    (∀ (st : SymbolTable) (ns_manager : List String),
        findInputVariables st ns_manager =
          (scanSymbols (flattenSymbols st) [] ns_manager).1)
    ∧ (∀ (st : SymbolTable) (ns_manager : List String) (x : String),
        x ∈ findInputVariables st ns_manager ↔
          ∃ pre s post, flattenSymbols st = pre ++ s :: post ∧ s.name = x ∧
            s.is_global = true ∧ ns_manager.contains x = false ∧
            (importedUpTo [] (pre ++ [s])).contains x = false)
    ∧ (findInputVariables treeYX [] = ["x"]
        ∧ findOutputVariables treeYX = some ["y"]) := by
  refine ⟨findInputVariables_eq_scan, ?_, by decide, by decide⟩
  intro st ns_manager x
  rw [findInputVariables_eq_scan]
  exact mem_scanSymbols ns_manager (flattenSymbols st) [] x

/-- C5 counterexample: for the tree of `"def f():\n    return x\nf(x)"` the
name `x` qualifies both at module scope and inside the function scope, so the
input list contains it twice — it is not deduplicated by name, contradicting
the claim. -/
theorem claim_C5_counterexample :
    findInputVariables treeDupInput [] = ["x", "x"]
    ∧ ¬ (findInputVariables treeDupInput []).Nodup := by
  exact ⟨by decide, by decide⟩

/-- C3 witness: `"x = 1"` and `"x = 2"` are different sources with the same
output-name set, and their identities coincide. -/
theorem claim_C3_witness :
    (mkCodeObject wHexDigest "x = 1" treeXAssign [] = some wCO1
      ∧ mkCodeObject wHexDigest "x = 2" treeXAssign [] = some wCO2
      ∧ wCO1.output_vars = wCO2.output_vars ∧ wCO1.output_vars ≠ []
      ∧ ("x = 1" : String) ≠ "x = 2")
    ∧ wCO1.display_id = wCO2.display_id :=
  ⟨⟨by decide, by decide, by decide, by decide, by decide⟩,
    claim_C3.2 wHexDigest "x = 1" "x = 2" treeXAssign treeXAssign [] [] wCO1 wCO2
      (by decide) (by decide) (by decide) (by decide)⟩

/-- C2, corrected.  As stated the claim is false (see the counterexample:
a failed `run_cell` raises the failure flag but never records the exception
triple, so `is_complete` is false).  Amended claim, proved here: every result
returned by a completed `run_cell` or `run_coroutine` call has non-null
captured stdout and stderr; the output/failure halves of the completeness
invariant do not hold in general. -/
theorem claim_C2 :
    (∀ (parsed : Option (List Stmt)) (name : String) (sys sys1 : SysState)
        (ns ns1 : Namespace) (r : ExecutionResult),
        run_cell parsed name sys ns = (sys1, Except.ok (ns1, r)) →
        r.stdout.isSome = true ∧ r.stderr.isSome = true)
    ∧ (∀ (co : CoOutcome) (vname : String) (nohandle : List String)
        (sys sys1 : SysState) (ns ns1 : Namespace) (r : ExecutionResult),
        run_coroutine co vname nohandle sys ns = (sys1, ns1, Except.ok r) →
        r.stdout.isSome = true ∧ r.stderr.isSome = true) := by
  constructor
  · intro parsed name sys sys1 ns ns1 r h
    cases parsed with
    | none =>
      have h2 := congrArg Prod.snd h
      simp [run_cell] at h2
    | some body =>
      have h2 := congrArg Prod.snd h
      simp only [run_cell, Except.ok.injEq, Prod.mk.injEq] at h2
      obtain ⟨-, h3⟩ := h2
      subst h3
      have hres := runAstNodes_res body
        { ns := ns, res := ExecutionResult.init.capture_io "" "" }
      constructor
      · show ((runAstNodes { ns := ns, res := ExecutionResult.init.capture_io "" "" }
            body).1.res.stdout).isSome = true
        rw [hres.1]
        rfl
      · show ((runAstNodes { ns := ns, res := ExecutionResult.init.capture_io "" "" }
            body).1.res.stderr).isSome = true
        rcases hres.2 with he | he
        · rw [he]; rfl
        · exact he
  · intro co vname nohandle sys sys1 ns ns1 r h
    cases co with
    | resolves v =>
      have h2 := congrArg (fun p => p.2.2) h
      simp only [run_coroutine, Except.ok.injEq] at h2
      subst h2
      exact ⟨rfl, rfl⟩
    | raises e =>
      have h2 := congrArg (fun p => p.2.2) h
      simp only [run_coroutine] at h2
      by_cases hc : nohandle.contains e = true
      · rw [if_pos hc] at h2
        exact absurd h2 (by simp)
      · rw [if_neg hc] at h2
        simp only [Except.ok.injEq] at h2
        subst h2
        exact ⟨rfl, rfl⟩

/-- C2 counterexample: the completed call `runCell("1/0", "cell2")` returns a
result whose failure flag is set but which fails `is_complete`, because no
exception triple was recorded. -/
theorem claim_C2_counterexample :
    Except.map (fun p => (p.2.has_exception, p.2.is_complete))
      (run_cell (some [stmtDivZero]) "cell2" sys0 nsA).2 = Except.ok (true, false) := by
  rfl

/-- C2 witness: instantiating the `run_cell` half at a source parsing to an
empty statement list. -/
theorem claim_C2_witness :
    (run_cell (some []) "w" sys0 ([] : Namespace) =
        (sys0, Except.ok (([] : Namespace), emptyCellResult)))
    ∧ (emptyCellResult.stdout.isSome = true ∧ emptyCellResult.stderr.isSome = true) :=
  ⟨rfl, claim_C2.1 (some []) "w" sys0 sys0 [] [] emptyCellResult rfl⟩

end ReactivePy
